import Mathlib

/-!
Verification development for the `chariot` command-line chat agent
(`main.go`): a conversation loop between a console user and an Ollama
inference backend, mediating a tool-use protocol with two tools
(`read_file`, `list_files`).

The Go program is shallowly embedded.  External collaborators are modelled
at their interface boundary:
* the inference backend and HTTP transport as a list of `TransportEvent`s,
  one consumed per `OllamaClient.Chat` round-trip;
* the console input as a list of user-input lines, the console output as a
  list of `ConsoleLine`s accumulated by the loop;
* the filesystem as an `Fs` record giving the outcome of `os.ReadFile` and
  the directory tree seen by `filepath.Walk`.
JSON documents are modelled by the inductive `Json`; `json.RawMessage`
payloads obtained from a successfully parsed response body are always
valid JSON, hence are modelled as `Json` values directly.
A Go `panic` (the tool implementations panic on an undecodable argument
payload) is modelled as an explicit outcome constructor, distinct from an
error return.
-/

/-- A JSON value.  Go JSON numbers are float64; the integral numbers that
occur here are modelled as `Int`. -/
inductive Json where
  | null : Json
  | bool : Bool → Json
  | num : Int → Json
  | str : String → Json
  | arr : List Json → Json
  | obj : List (String × Json) → Json

/-- Field lookup in a JSON object, as Go's `encoding/json` decoder sees it:
keys are processed in order and a later duplicate overwrites an earlier
one, so the last occurrence wins. -/
def jsonField (fields : List (String × Json)) (key : String) : Option Json :=
  fields.foldl (fun acc p => if p.1 = key then some p.2 else acc) none

/-- Decoding a JSON value into a Go `string` struct field
(`json.Unmarshal` semantics): an absent or `null` field leaves the zero
value `""`; a string is taken as is; any other value is a type-mismatch
error.  The Go error text names the concrete struct field; the message is
modelled by a fixed descriptive string. -/
def goDecodeStringField (v : Option Json) : Except String String :=
  match v with
  | none => .ok ""
  | some .null => .ok ""
  | some (.str s) => .ok s
  | some _ => .error "json: cannot unmarshal value into Go value of type string"

/-- Decoding a JSON value into a Go `bool` struct field. -/
def goDecodeBoolField (v : Option Json) : Except String Bool :=
  match v with
  | none => .ok false
  | some .null => .ok false
  | some (.bool b) => .ok b
  | some _ => .error "json: cannot unmarshal value into Go value of type bool"

/-- `ReadFileInput` from `main.go`: the argument struct of the `read_file`
tool. -/
structure ReadFileInput where
  path : String
deriving DecidableEq

/-- `json.Unmarshal` of a raw payload into `ReadFileInput`: `null` leaves
the zero value, an object is decoded field-wise, anything else is a
type-mismatch error. -/
def unmarshalReadFileInput (j : Json) : Except String ReadFileInput :=
  match j with
  | .null => .ok ⟨""⟩
  | .obj fields =>
    match goDecodeStringField (jsonField fields "path") with
    | .error e => .error e
    | .ok p => .ok ⟨p⟩
  | _ => .error "json: cannot unmarshal value into Go value of type main.ReadFileInput"

/-- `ListFilesInput` from `main.go`: the argument struct of the
`list_files` tool. -/
structure ListFilesInput where
  path : String
deriving DecidableEq

/-- `json.Unmarshal` of a raw payload into `ListFilesInput`. -/
def unmarshalListFilesInput (j : Json) : Except String ListFilesInput :=
  match j with
  | .null => .ok ⟨""⟩
  | .obj fields =>
    match goDecodeStringField (jsonField fields "path") with
    | .error e => .error e
    | .ok p => .ok ⟨p⟩
  | _ => .error "json: cannot unmarshal value into Go value of type main.ListFilesInput"

/-- A node of the filesystem tree as seen by `filepath.Walk`: a regular
file with its content, or a directory with its named children (in
arbitrary on-disk order; `filepath.Walk` sorts each directory's entries
lexically before visiting them). -/
inductive FsNode where
  | file : String → FsNode
  | dir : List (String × FsNode) → FsNode

/-- The filesystem collaborator, specified only at its interface boundary:
`readFile` is the outcome of `os.ReadFile` on a path (content, or the
error's text such as a not-found, permission or is-a-directory message);
`statTree` is the outcome of `filepath.Walk`'s initial stat of the root
path: the tree rooted there, or the error text passed to the walk
callback (which the callback in `ListFiles` returns, aborting the walk). -/
structure Fs where
  readFile : String → Except String String
  statTree : String → Except String FsNode

/-- Lexicographic order on character sequences, by code point — on the
ASCII names occurring here this is exactly Go's byte-wise string order
used by `sort.Strings`. -/
def charListLe : List Char → List Char → Bool
  | [], _ => true
  | _ :: _, [] => false
  | a :: as, b :: bs =>
    if a.toNat < b.toNat then true
    else if b.toNat < a.toNat then false
    else charListLe as bs

/-- Go's string order, on the character sequences of the two strings. -/
def strLe (a b : String) : Bool := charListLe a.toList b.toList

/-- Insertion of one named entry into a name-sorted entry list. -/
def insertByName (p : String × FsNode) :
    List (String × FsNode) → List (String × FsNode)
  | [] => [p]
  | q :: qs => if strLe p.1 q.1 then p :: q :: qs else q :: insertByName p qs

/-- Lexical sort of a directory's entries by name, as `filepath.Walk`'s
`readDirNames` does before visiting them. -/
def sortByName : List (String × FsNode) → List (String × FsNode)
  | [] => []
  | p :: ps => insertByName p (sortByName ps)

mutual
/-- Sorts every directory's entry list lexically by name, modelling the
order in which `filepath.Walk` visits children at every level. -/
def sortTree : FsNode → FsNode
  | .file c => .file c
  | .dir es => .dir (sortByName (sortTreeEntries es))

/-- Pointwise `sortTree` over a directory's entries. -/
def sortTreeEntries : List (String × FsNode) → List (String × FsNode)
  | [] => []
  | (n, t) :: rest => (n, sortTree t) :: sortTreeEntries rest
end

/-- Joining a relative base path with a child name, as
`filepath.Rel(dir, filepath.Join(dir, ...))` yields for clean paths: the
empty base denotes the root itself. -/
def joinRel (base name : String) : String :=
  if base = "" then name else base ++ "/" ++ name

mutual
/-- The entries appended by the walk callback in `ListFiles` when
`filepath.Walk` visits the node whose path relative to the root is `rel`
(never `"."`, the root itself, which the callback skips): a file
contributes its relative path, a directory contributes its relative path
with a trailing `/` and is then recursed into (children assumed already
sorted; see `sortTree`). -/
def walkNode (rel : String) : FsNode → List String
  | .file _ => [rel]
  | .dir es => (rel ++ "/") :: walkNodeEntries rel es

/-- The walk over a directory's (sorted) entries, in order. -/
def walkNodeEntries (base : String) : List (String × FsNode) → List String
  | [] => []
  | (n, t) :: rest => walkNode (joinRel base n) t ++ walkNodeEntries base rest
end

/-- The full listing produced by `filepath.Walk` on the root node with the
callback of `ListFiles`: the root itself (relative path `"."`) is skipped,
then children are visited in sorted order.  A root that is a regular file
yields no entries. -/
def walkRoot : FsNode → List String
  | .file _ => []
  | .dir es => walkNodeEntries "" es

/-- One character of Go's `encoding/json` string encoding: quotes and
backslashes are escaped, common control characters use their short
escapes, and `<`, `>`, `&` are HTML-escaped by default.  (Other control
characters, which do not occur in this development, use `\u00XX` escapes
in Go.) -/
def goJsonEscapeChar (c : Char) : String :=
  if c = '"' then "\\\""
  else if c = '\\' then "\\\\"
  else if c = '\n' then "\\n"
  else if c = '\r' then "\\r"
  else if c = '\t' then "\\t"
  else if c = '<' then "\\u003c"
  else if c = '>' then "\\u003e"
  else if c = '&' then "\\u0026"
  else String.singleton c

/-- Go's `encoding/json` marshalling of a string. -/
def goJsonString (s : String) : String :=
  "\"" ++ String.join (s.toList.map goJsonEscapeChar) ++ "\""

/-- Go's `json.Marshal` of the `[]string` slice built by `ListFiles`: the
slice is declared `var files []string` and only ever grown by `append`,
so it is the nil slice exactly when it is empty, and the nil slice
marshals to `null`, not to `[]`. -/
def goJsonMarshalStringList (l : List String) : String :=
  match l with
  | [] => "null"
  | _ => "[" ++ String.intercalate "," (l.map goJsonString) ++ "]"

/-- Modelled from the spec: the serialization of a sequence of strings as
a JSON array of strings ("result is a structured (array-of-strings)
serialization of that sequence"), which for the empty sequence is `[]`.
Stated for comparison with `goJsonMarshalStringList`. -/
def specJsonArrayString (l : List String) : String :=
  "[" ++ String.intercalate "," (l.map goJsonString) ++ "]"

/-- Outcome of one Go tool implementation, of type
`func(input json.RawMessage) (string, error)`: a result string, a
returned error (its text), or a `panic` (which aborts the process). -/
inductive ToolOutcome where
  | ok : String → ToolOutcome
  | err : String → ToolOutcome
  | panicked : String → ToolOutcome
deriving DecidableEq

/-- `ReadFile` from `main.go`: decode the payload into `ReadFileInput`
(`panic(err)` on a decode error), then `os.ReadFile` the path, returning
the content or the error. -/
def ReadFile (fs : Fs) (input : Json) : ToolOutcome :=
  match unmarshalReadFileInput input with
  | .error e => .panicked e
  | .ok inp =>
    match fs.readFile inp.path with
    | .error e => .err e
    | .ok content => .ok content

/-- `ListFiles` from `main.go`: decode the payload into `ListFilesInput`
(`panic(err)` on a decode error), default the path to `"."` when empty,
walk the tree with `filepath.Walk` collecting relative paths (directories
suffixed with `/`, root excluded), and `json.Marshal` the collected
slice. -/
def ListFiles (fs : Fs) (input : Json) : ToolOutcome :=
  match unmarshalListFilesInput input with
  | .error e => .panicked e
  | .ok inp =>
    let dir := if inp.path = "" then "." else inp.path
    match fs.statTree dir with
    | .error e => .err e
    | .ok node => .ok (goJsonMarshalStringList (walkRoot (sortTree node)))

/-- `ToolDefinition` from `main.go`.  The `InputSchema` field (a
reflection-generated JSON schema, consumed only when building the backend
request) plays no role in the dispatch or tool semantics and is not
modelled. -/
structure ToolDefinition where
  name : String
  description : String
  function : Json → ToolOutcome

/-- `ReadFileDefinition` from `main.go`. -/
def ReadFileDefinition (fs : Fs) : ToolDefinition :=
  { name := "read_file"
    description := "Read the contents of a given relative file path. Use this when you want to see what's inside a file. Do not use this with directory names."
    function := ReadFile fs }

/-- `ListFilesDefinition` from `main.go`. -/
def ListFilesDefinition (fs : Fs) : ToolDefinition :=
  { name := "list_files"
    description := "List files and directories at a given path. If no path is provided, lists files in the current directory."
    function := ListFiles fs }

/-- The tool catalog registered in `main`: `read_file` then `list_files`,
in that order. -/
def mainTools (fs : Fs) : List ToolDefinition :=
  [ReadFileDefinition fs, ListFilesDefinition fs]

/-- The inner anonymous struct of `ToolCall` in `main.go`: the function
name and the raw argument payload (`json.RawMessage`).  A payload carried
by a successfully parsed response body is always valid JSON, so it is
modelled as a `Json` value; an absent field is modelled as `Json.null`. -/
structure ToolCallFunction where
  name : String
  arguments : Json

/-- `ToolCall` from `main.go`. -/
structure ToolCall where
  function : ToolCallFunction

/-- `OllamaMessage` from `main.go`: one turn of the transcript. -/
structure OllamaMessage where
  role : String
  content : String
  toolCalls : List ToolCall

/-- `OllamaResponse` from `main.go`: the decoded backend response body. -/
structure OllamaResponse where
  message : OllamaMessage
  done : Bool

/-- `json.Unmarshal` of one element of `tool_calls` into `ToolCall`:
`null` leaves the zero value; an object is decoded via its `function`
field, whose `name` is a string field and whose `arguments` keeps the raw
JSON value. -/
def unmarshalToolCall (j : Json) : Except String ToolCall :=
  match j with
  | .null => .ok ⟨⟨"", .null⟩⟩
  | .obj fields =>
    match jsonField fields "function" with
    | none => .ok ⟨⟨"", .null⟩⟩
    | some .null => .ok ⟨⟨"", .null⟩⟩
    | some (.obj gfields) =>
      match goDecodeStringField (jsonField gfields "name") with
      | .error e => .error e
      | .ok n => .ok ⟨⟨n, (jsonField gfields "arguments").getD .null⟩⟩
    | some _ => .error "json: cannot unmarshal value into Go value of type ToolCall.function"
  | _ => .error "json: cannot unmarshal value into Go value of type main.ToolCall"

/-- `json.Unmarshal` of the `tool_calls` field into `[]ToolCall`: absent
or `null` leaves the nil slice; an array is decoded element-wise; any
other value is a type-mismatch error. -/
def unmarshalToolCallsField (v : Option Json) : Except String (List ToolCall) :=
  match v with
  | none => .ok []
  | some .null => .ok []
  | some (.arr elems) => goToolCallList elems
  | some _ => .error "json: cannot unmarshal value into Go value of type []main.ToolCall"
where
  /-- Element-wise decoding of a JSON array into `[]ToolCall`. -/
  goToolCallList : List Json → Except String (List ToolCall)
  | [] => .ok []
  | e :: es =>
    match unmarshalToolCall e with
    | .error msg => .error msg
    | .ok tc =>
      match goToolCallList es with
      | .error msg => .error msg
      | .ok tcs => .ok (tc :: tcs)

/-- `json.Unmarshal` of a JSON value into `OllamaMessage`. -/
def unmarshalOllamaMessage (j : Json) : Except String OllamaMessage :=
  match j with
  | .null => .ok ⟨"", "", []⟩
  | .obj fields =>
    match goDecodeStringField (jsonField fields "role") with
    | .error e => .error e
    | .ok r =>
      match goDecodeStringField (jsonField fields "content") with
      | .error e => .error e
      | .ok c =>
        match unmarshalToolCallsField (jsonField fields "tool_calls") with
        | .error e => .error e
        | .ok tcs => .ok ⟨r, c, tcs⟩
  | _ => .error "json: cannot unmarshal value into Go value of type main.OllamaMessage"

/-- `json.Unmarshal` of the response body into `OllamaResponse`.  Go's
decoder silently ignores unknown object keys: a body such as an
`error`-only object decodes successfully to the zero `OllamaResponse`. -/
def unmarshalOllamaResponse (j : Json) : Except String OllamaResponse :=
  match j with
  | .null => .ok ⟨⟨"", "", []⟩, false⟩
  | .obj fields =>
    match (match jsonField fields "message" with
           | none => Except.ok (⟨"", "", []⟩ : OllamaMessage)
           | some jm => unmarshalOllamaMessage jm) with
    | .error e => .error e
    | .ok m =>
      match goDecodeBoolField (jsonField fields "done") with
      | .error e => .error e
      | .ok d => .ok ⟨m, d⟩
  | _ => .error "json: cannot unmarshal value into Go value of type main.OllamaResponse"

/-- One HTTP round-trip of `OllamaClient.Chat`, at the transport
boundary: either the request or body read failed with an error
(`http.Client.Do` or `io.ReadAll`), or a body was obtained — `raw` holds
the body bytes, and `parsed` their reading as a JSON value (`none` when
the bytes are not valid JSON). -/
inductive TransportEvent where
  | ioError : String → TransportEvent
  | body : String → Option Json → TransportEvent

/-- `OllamaClient.Chat` from `main.go`: a transport failure is returned
as is; a body that does not decode into `OllamaResponse` is returned as a
`failed to parse response` error quoting the body; otherwise the decoded
response is returned.  Note the code checks neither the HTTP status code
nor an `error` field of the body.  (The JSON syntax error text produced
by Go's decoder is modelled by the fixed string `invalid JSON`.) -/
def Chat (ev : TransportEvent) : Except String OllamaResponse :=
  match ev with
  | .ioError e => .error e
  | .body raw none => .error ("failed to parse response: invalid JSON, body: " ++ raw)
  | .body raw (some j) =>
    match unmarshalOllamaResponse j with
    | .error em => .error ("failed to parse response: " ++ em ++ ", body: " ++ raw)
    | .ok r => .ok r

/-- One line of console output written by the agent: the `You: ` prompt,
an `Ollama: <content>` assistant display, or the `tool: <name>(<args>)`
trace printed by `executeTool` before invoking a found tool.  (The
one-off greeting banner printed on entry to `Run` is not modelled.) -/
inductive ConsoleLine where
  | prompt : ConsoleLine
  | assistant : String → ConsoleLine
  | toolTrace : String → Json → ConsoleLine

/-- Outcome of a tool invocation as seen by the loop: `executeTool`
returns a plain string, and a `panic` raised inside the tool
implementation escapes it and aborts the process. -/
inductive ExecOutcome where
  | ok : String → ExecOutcome
  | panicked : String → ExecOutcome
deriving DecidableEq

/-- The plain string held by a non-panicking `ExecOutcome` (default for a
panic, used only under a no-panic hypothesis). -/
def ExecOutcome.valueD : ExecOutcome → String
  | .ok s => s
  | .panicked _ => ""

/-- The linear catalog lookup inside `Agent.executeTool`: the first
descriptor whose name matches, scanning in registration order. -/
def findTool : List ToolDefinition → String → Option ToolDefinition
  | [], _ => none
  | t :: ts, n => if t.name = n then some t else findTool ts n

/-- `Agent.executeTool` from `main.go`, together with the console trace
it prints: an unregistered name yields the fixed string `tool not found`
(and no trace); a found tool is traced and invoked, a returned error
becomes the result string via `err.Error()`, and a panic escapes. -/
def executeToolRun (tools : List ToolDefinition) (name : String) (input : Json) :
    List ConsoleLine × ExecOutcome :=
  match findTool tools name with
  | none => ([], .ok "tool not found")
  | some td =>
    ([.toolTrace name input],
     match td.function input with
     | .ok r => .ok r
     | .err e => .ok e
     | .panicked m => .panicked m)

/-- The value `Agent.executeTool` produces (console trace projected
away). -/
def executeTool (tools : List ToolDefinition) (name : String) (input : Json) :
    ExecOutcome :=
  (executeToolRun tools name input).2

/-- The per-call result string built in the tool-call loop of
`Agent.Run`: `fmt.Sprintf("Tool %s result: %s", name, result)`. -/
def tagResult (name result : String) : String :=
  "Tool " ++ name ++ " result: " ++ result

/-- Go's `fmt` `%v` rendering of a `[]string`: the elements separated by
single spaces, between square brackets. -/
def goFmtStringSlice (l : List String) : String :=
  "[" ++ String.intercalate " " l ++ "]"

/-- An `OllamaMessage` with role `user` and no tool calls, as appended by
`Agent.Run` for console input and for tool results. -/
def userMsg (s : String) : OllamaMessage :=
  ⟨"user", s, []⟩

/-- The synthetic turn appended after dispatching a turn's tool calls:
role `user`, content `fmt.Sprintf("Tool results: %v", toolResults)`. -/
def toolResultsMsg (results : List String) : OllamaMessage :=
  userMsg ("Tool results: " ++ goFmtStringSlice results)

/-- Outcome of the whole tool-call dispatch loop: the tagged per-call
result strings, or a panic escaping one of the calls. -/
inductive DispatchOutcome where
  | ok : List String → DispatchOutcome
  | panicked : String → DispatchOutcome
deriving DecidableEq

/-- The tool-call dispatch loop inside `Agent.Run`: each request, in
order, is passed to `executeTool` and its tagged result collected.  The
first component is the console trace produced (traces of all calls
actually started); a panic escaping one call aborts the loop there, the
earlier results lost with the process. -/
def dispatchCalls (tools : List ToolDefinition) :
    List ToolCall → List ConsoleLine × DispatchOutcome
  | [] => ([], .ok [])
  | tc :: rest =>
    let e := executeToolRun tools tc.function.name tc.function.arguments
    match e.2 with
    | .panicked m => (e.1, .panicked m)
    | .ok s =>
      let r := dispatchCalls tools rest
      (e.1 ++ r.1,
       match r.2 with
       | .ok results => .ok (tagResult tc.function.name s :: results)
       | .panicked m => .panicked m)

/-- Terminal status of `Agent.Run`: normal return (`nil` error) after
input exhaustion, an error return from a failed backend call, a process
abort from a panic escaping a tool implementation, or `starved` — a model
artifact marking that the supplied list of transport events ran out while
the loop still wanted a backend call (the real backend always answers; a
run is fully modelled by supplying enough events). -/
inductive RunResult where
  | done : RunResult
  | fail : String → RunResult
  | panicked : String → RunResult
  | starved : RunResult
deriving DecidableEq

/-- Observable outcome of a (partial or complete) run of the loop: the
terminal status, the final conversation transcript, the console output,
and the user inputs and transport events left unconsumed. -/
structure RunOutput where
  result : RunResult
  conv : List OllamaMessage
  console : List ConsoleLine
  inputsLeft : List String
  eventsLeft : List TransportEvent

/-- Step 1 of a loop iteration in `Agent.Run` (`if readUserInput { ... }`):
when reading is enabled, print the `You: ` prompt and read one line — no
line available means the loop breaks (`none`); a line read is appended as
a `user` turn.  When reading is disabled the state passes through. -/
def step1 (readUserInput : Bool) (inputs : List String)
    (conv : List OllamaMessage) (console : List ConsoleLine) :
    Option (List String × List OllamaMessage × List ConsoleLine) :=
  if readUserInput then
    match inputs with
    | [] => none
    | u :: us => some (us, conv ++ [userMsg u], console ++ [.prompt])
  else some (inputs, conv, console)

/-- The `for` loop of `Agent.Run` from `main.go`, one iteration per
recursive step: read input if enabled (breaking on exhaustion with a
`nil` error), call the backend (`runInference`/`Chat`, consuming the next
transport event; an error aborts the run returning it), append the
response message unconditionally, then either dispatch its tool calls and
append the single aggregated tool-results turn — continuing with input
reading disabled — or print the assistant content and continue with input
reading enabled. -/
def runLoop (tools : List ToolDefinition) (events : List TransportEvent)
    (readUserInput : Bool) (inputs : List String)
    (conv : List OllamaMessage) (console : List ConsoleLine) : RunOutput :=
  match step1 readUserInput inputs conv console with
  | none => ⟨.done, conv, console ++ [.prompt], [], events⟩
  | some (inputs1, conv1, console1) =>
    match events with
    | [] => ⟨.starved, conv1, console1, inputs1, []⟩
    | ev :: rest =>
      match Chat ev with
      | .error e => ⟨.fail e, conv1, console1, inputs1, rest⟩
      | .ok resp =>
        let conv2 := conv1 ++ [resp.message]
        match resp.message.toolCalls with
        | [] =>
          runLoop tools rest true inputs1 conv2
            (console1 ++ [.assistant resp.message.content])
        | _ :: _ =>
          match dispatchCalls tools resp.message.toolCalls with
          | (traces, .panicked m) =>
            ⟨.panicked m, conv2, console1 ++ traces, inputs1, rest⟩
          | (traces, .ok results) =>
            runLoop tools rest false inputs1
              (conv2 ++ [toolResultsMsg results]) (console1 ++ traces)

/-- `Agent.Run` from `main.go`, started as `main` does: input reading
enabled, empty transcript, no console output yet. -/
def AgentRun (tools : List ToolDefinition) (inputs : List String)
    (events : List TransportEvent) : RunOutput :=
  runLoop tools events true inputs [] []

/-- A filesystem fixture on which every path access fails, as `os.ReadFile`
and `filepath.Walk` report it. -/
def fsNone : Fs :=
  { readFile := fun p => .error ("open " ++ p ++ ": no such file or directory")
    statTree := fun p => .error ("lstat " ++ p ++ ": no such file or directory") }

/-- A directory-tree fixture: `a.txt`, and `b.txt` inside subdirectory
`sub` (children listed out of lexical order on purpose). -/
def nodeData : FsNode :=
  .dir [("sub", .dir [("b.txt", .file "bb")]), ("a.txt", .file "aa")]

/-- A filesystem fixture with one readable file `notes.txt` and one
walkable directory `data` (holding `nodeData`). -/
def fsData : Fs :=
  { readFile := fun p =>
      if p = "notes.txt" then .ok "hello"
      else .error ("open " ++ p ++ ": no such file or directory")
    statTree := fun p =>
      if p = "data" then .ok nodeData
      else .error ("lstat " ++ p ++ ": no such file or directory") }

/-- A filesystem fixture whose directory `emptydir` exists and is
empty. -/
def fsEmptyDir : Fs :=
  { readFile := fun p => .error ("open " ++ p ++ ": no such file or directory")
    statTree := fun p =>
      if p = "emptydir" then .ok (.dir []) else .error ("lstat " ++ p ++ ": no such file or directory") }

/-- A filesystem fixture whose current working directory `.` is empty. -/
def fsDotEmpty : Fs :=
  { readFile := fun p => .error ("open " ++ p ++ ": no such file or directory")
    statTree := fun p =>
      if p = "." then .ok (.dir []) else .error ("lstat " ++ p ++ ": no such file or directory") }

/-- A transport event delivering a parseable body that reports a backend
error: the JSON object with the single key `error` (as Ollama sends for a
failed request), which `json.Unmarshal` decodes into the zero
`OllamaResponse` because unknown keys are ignored. -/
def backendErrorEvent : TransportEvent :=
  .body "\x7b\"error\":\"model not found\"\x7d" (some (Json.obj [("error", Json.str "model not found")]))

/-- Two distinct tool descriptors sharing the name `dup`, to exercise the
first-match rule of the linear catalog lookup. -/
def dupToolA : ToolDefinition :=
  { name := "dup", description := "first registration", function := fun _ => .ok "first" }

/-- The later-registered descriptor with the duplicate name `dup`. -/
def dupToolB : ToolDefinition :=
  { name := "dup", description := "second registration", function := fun _ => .ok "second" }

/-- A transport event whose body carries an assistant turn with two tool
call requests: `read_file` on `notes.txt`, then `list_files` on `data`. -/
def evTwoCalls : TransportEvent :=
  .body "r1" (some (Json.obj [("message", Json.obj
    [("role", Json.str "assistant"),
     ("tool_calls", Json.arr
       [Json.obj [("function", Json.obj
          [("name", Json.str "read_file"),
           ("arguments", Json.obj [("path", Json.str "notes.txt")])])],
        Json.obj [("function", Json.obj
          [("name", Json.str "list_files"),
           ("arguments", Json.obj [("path", Json.str "data")])])]])])]))

/-- A transport event whose body carries a plain assistant turn with
content `done` and no tool calls. -/
def evDone : TransportEvent :=
  .body "r2" (some (Json.obj [("message", Json.obj
    [("role", Json.str "assistant"), ("content", Json.str "done")])]))

/-- A transport event whose body carries an assistant turn requesting
`read_file` with a malformed argument payload: `path` is the number `5`,
not a string, which the tool implementation cannot decode. -/
def evBadPayload : TransportEvent :=
  .body "r3" (some (Json.obj [("message", Json.obj
    [("role", Json.str "assistant"),
     ("tool_calls", Json.arr
       [Json.obj [("function", Json.obj
          [("name", Json.str "read_file"),
           ("arguments", Json.obj [("path", Json.num 5)])])]])])]))

/-- A transport event whose body carries an assistant turn requesting the
unregistered tool `make_coffee` (no `arguments` field, so the raw payload
is left nil, modelled as `Json.null`). -/
def evUnknownTool : TransportEvent :=
  .body "r4" (some (Json.obj [("message", Json.obj
    [("role", Json.str "assistant"),
     ("tool_calls", Json.arr
       [Json.obj [("function", Json.obj [("name", Json.str "make_coffee")])]])])]))

/-- A transport event whose body carries an assistant turn requesting
`read_file` on `config.yaml`, a file that does not exist in the `fsData`
fixture. -/
def evReadMissing : TransportEvent :=
  .body "r5" (some (Json.obj [("message", Json.obj
    [("role", Json.str "assistant"),
     ("tool_calls", Json.arr
       [Json.obj [("function", Json.obj
          [("name", Json.str "read_file"),
           ("arguments", Json.obj [("path", Json.str "config.yaml")])])]])])]))

/-- Looking a name up in a catalog containing no descriptor of that name
finds nothing. -/
theorem findTool_eq_none (tools : List ToolDefinition) (name : String)
    (h : ∀ td ∈ tools, td.name ≠ name) : findTool tools name = none := by
  induction tools with
  | nil => rfl
  | cons t ts ih =>
    simp only [findTool]
    rw [if_neg (h t (List.mem_cons_self t ts))]
    exact ih (fun td hm => h td (List.mem_cons_of_mem t hm))

/-- The linear lookup returns the first descriptor whose name matches:
descriptors before it do not match, descriptors after it are never
examined. -/
theorem findTool_first (pre post : List ToolDefinition) (td : ToolDefinition)
    (name : String) (hpre : ∀ t ∈ pre, t.name ≠ name) (hn : td.name = name) :
    findTool (pre ++ td :: post) name = some td := by
  induction pre with
  | nil => simp only [List.nil_append, findTool, if_pos hn]
  | cons t ts ih =>
    simp only [List.cons_append, findTool]
    rw [if_neg (hpre t (List.mem_cons_self t ts))]
    exact ih (fun u hm => hpre u (List.mem_cons_of_mem t hm))

/-- When no call of a batch panics, the dispatch loop yields exactly one
tagged result string per call, in request order. -/
theorem dispatchCalls_no_panic (tools : List ToolDefinition)
    (calls : List ToolCall)
    (h : ∀ tc ∈ calls, ∃ s, executeTool tools tc.function.name tc.function.arguments = .ok s) :
    (dispatchCalls tools calls).2 =
      .ok (calls.map (fun tc =>
        tagResult tc.function.name
          (executeTool tools tc.function.name tc.function.arguments).valueD)) := by
  induction calls with
  | nil => rfl
  | cons tc rest ih =>
    obtain ⟨s, hs⟩ := h tc (List.mem_cons_self tc rest)
    have hrest := ih (fun u hm => h u (List.mem_cons_of_mem tc hm))
    simp only [dispatchCalls, List.map_cons]
    have hrun : (executeToolRun tools tc.function.name tc.function.arguments).2 = .ok s := hs
    rw [hrun, hrest, hs]
    simp [ExecOutcome.valueD]

/-- The transcript produced by pairing user inputs with the backend's
answering turns, in order: user turn then assistant turn, repeated. -/
def transcriptOf : List String → List OllamaMessage → List OllamaMessage
  | u :: us, m :: ms => userMsg u :: m :: transcriptOf us ms
  | _, _ => []

/-- The console output of a run whose backend turns carry no tool calls:
a prompt, then the assistant content, per exchange, and the final prompt
at which input is exhausted. -/
def consoleOf : List OllamaMessage → List ConsoleLine
  | [] => [.prompt]
  | m :: ms => .prompt :: .assistant m.content :: consoleOf ms

/-- The assistant contents displayed on the console, in display order. -/
def shownAssistant : List ConsoleLine → List String
  | [] => []
  | .assistant c :: rest => c :: shownAssistant rest
  | _ :: rest => shownAssistant rest

/-- Strict user/assistant role alternation of a transcript, in pairs. -/
def rolesAlternate : List OllamaMessage → Bool
  | [] => true
  | [_] => false
  | u :: m :: rest => u.role == "user" && (m.role == "assistant" && rolesAlternate rest)

/-- A run in which every backend turn carries no tool calls consumes one
input and one transport event per exchange, appends the user/assistant
turn pair each time, displays each assistant content, and terminates
normally when input runs out. -/
theorem runLoop_no_toolcalls (tools : List ToolDefinition) :
    ∀ (msgs : List OllamaMessage) (events : List TransportEvent)
      (us : List String) (conv : List OllamaMessage) (console : List ConsoleLine),
      us.length = msgs.length →
      List.Forall₂ (fun ev m => ∃ d, Chat ev = .ok ⟨m, d⟩) events msgs →
      (∀ m ∈ msgs, m.toolCalls = []) →
      runLoop tools events true us conv console =
        ⟨.done, conv ++ transcriptOf us msgs, console ++ consoleOf msgs, [], []⟩ := by
  intro msgs
  induction msgs with
  | nil =>
    intro events us conv console hlen hfa _
    cases hfa
    have hus : us = [] := List.length_eq_zero.mp hlen
    subst hus
    rw [runLoop]
    simp [step1, transcriptOf, consoleOf]
  | cons m ms ih =>
    intro events us conv console hlen hfa htc
    cases hfa with
    | cons hev hfa' =>
      cases us with
      | nil => simp at hlen
      | cons u us' =>
        obtain ⟨d, hd⟩ := hev
        rw [runLoop]
        simp only [step1, hd, htc m (List.mem_cons_self m ms), if_true]
        rw [ih _ us' _ _ (by simpa using hlen) hfa'
          (fun x hm => htc x (List.mem_cons_of_mem m hm))]
        simp [transcriptOf, consoleOf, List.append_assoc]

/-- The paired transcript of `N` exchanges has exactly `2 N` turns. -/
theorem transcriptOf_length (us : List String) (msgs : List OllamaMessage)
    (h : us.length = msgs.length) :
    (transcriptOf us msgs).length = 2 * msgs.length := by
  induction msgs generalizing us with
  | nil =>
    have : us = [] := List.length_eq_zero.mp h
    subst this
    rfl
  | cons m ms ih =>
    cases us with
    | nil => simp at h
    | cons u us' =>
      simp only [transcriptOf, List.length_cons]
      rw [ih us' (by simpa using h)]
      ring

/-- The paired transcript alternates `user` and `assistant` roles when
every backend turn has the `assistant` role. -/
theorem transcriptOf_alternates (us : List String) (msgs : List OllamaMessage)
    (h : us.length = msgs.length) (hr : ∀ m ∈ msgs, m.role = "assistant") :
    rolesAlternate (transcriptOf us msgs) = true := by
  induction msgs generalizing us with
  | nil =>
    have : us = [] := List.length_eq_zero.mp h
    subst this
    rfl
  | cons m ms ih =>
    cases us with
    | nil => simp at h
    | cons u us' =>
      have h1 := ih us' (by simpa using h) (fun x hm => hr x (List.mem_cons_of_mem m hm))
      have h2 := hr m (List.mem_cons_self m ms)
      simp [transcriptOf, rolesAlternate, userMsg, h1, h2]

/-- Each assistant content is displayed exactly once, in order. -/
theorem shownAssistant_consoleOf (msgs : List OllamaMessage) :
    shownAssistant (consoleOf msgs) = msgs.map (fun m => m.content) := by
  induction msgs with
  | nil => rfl
  | cons m ms ih => simp [consoleOf, shownAssistant, ih]

/-- Claim C4: for every tool call request whose name matches no descriptor
in the catalog, dispatch returns the fixed string `tool not found` as the
tool result, and the session continues: the iteration appends the
aggregated synthetic turn carrying that result and loops on to the next
backend call, neither crashing nor terminating. -/
theorem executeTool_unknown_tool_not_found
    (tools : List ToolDefinition) (name : String) (input : Json)
    (ev : TransportEvent) (rest : List TransportEvent) (inputs : List String)
    (conv : List OllamaMessage) (console : List ConsoleLine) (resp : OllamaResponse)
    (h : ∀ td ∈ tools, td.name ≠ name) :
    executeTool tools name input = .ok "tool not found" ∧
    (Chat ev = .ok resp → resp.message.toolCalls = [⟨⟨name, input⟩⟩] →
      runLoop tools (ev :: rest) false inputs conv console =
        runLoop tools rest false inputs
          (conv ++ [resp.message, toolResultsMsg [tagResult name "tool not found"]])
          console) := by
  have hf := findTool_eq_none tools name h
  constructor
  · simp [executeTool, executeToolRun, hf]
  · intro hev htc
    rw [runLoop]
    simp only [step1, hev, htc]
    simp [dispatchCalls, executeToolRun, hf, List.append_assoc]

/-- Witness for C4: dispatching `make_coffee`, which the catalog of `main`
does not register, yields `tool not found` and the loop proceeds to the
next backend call with the synthetic turn appended. -/
theorem executeTool_unknown_tool_not_found_witness :
    executeTool (mainTools fsNone) "make_coffee" Json.null = .ok "tool not found" ∧
    runLoop (mainTools fsNone) [evUnknownTool] false [] [] [] =
      runLoop (mainTools fsNone) [] false []
        [⟨"assistant", "", [⟨⟨"make_coffee", Json.null⟩⟩]⟩,
         toolResultsMsg [tagResult "make_coffee" "tool not found"]] [] := by
  have h := executeTool_unknown_tool_not_found (mainTools fsNone) "make_coffee" Json.null
    evUnknownTool [] [] [] []
    ⟨⟨"assistant", "", [⟨⟨"make_coffee", Json.null⟩⟩]⟩, false⟩
    (by simp [mainTools, ReadFileDefinition, ListFilesDefinition])
  exact ⟨h.1, h.2 (by rfl) (by rfl)⟩

/-- Claim C8: when the user input source is exhausted while the loop is
awaiting user input, the conversation loop terminates and `Agent.Run`
returns normally (a `nil` error), leaving the transcript as it was and
having printed the final prompt. -/
theorem run_input_exhaustion_returns_normally
    (tools : List ToolDefinition) (events : List TransportEvent)
    (conv : List OllamaMessage) (console : List ConsoleLine) :
    runLoop tools events true [] conv console =
      ⟨.done, conv, console ++ [.prompt], [], events⟩ ∧
    AgentRun tools [] events = ⟨.done, [], [.prompt], [], events⟩ := by
  constructor
  · rw [runLoop]; rfl
  · simp only [AgentRun]; rw [runLoop]; rfl

/-- Claim C9: listing an accessible directory that has no entries besides
the root itself returns the string `null`, not the empty JSON array `[]`:
the unpopulated nil slice is what `json.Marshal` serializes. -/
theorem listFiles_empty_dir_marshals_null (fs : Fs) (p : String)
    (h : fs.statTree (if p = "" then "." else p) = .ok (FsNode.dir [])) :
    ListFiles fs (Json.obj [("path", Json.str p)]) = .ok "null" ∧
    ListFiles fs (Json.obj [("path", Json.str p)]) ≠ .ok "[]" := by
  have hmain : ListFiles fs (Json.obj [("path", Json.str p)]) = .ok "null" := by
    simp [ListFiles, unmarshalListFilesInput, jsonField, goDecodeStringField, h,
      walkRoot, walkNodeEntries, sortTree, sortTreeEntries, sortByName,
      goJsonMarshalStringList]
  refine ⟨hmain, ?_⟩
  rw [hmain]
  simp

/-- Witness for C9: listing the empty current working directory (empty
path defaults to `.`) yields `null`. -/
theorem listFiles_empty_dir_marshals_null_witness :
    ListFiles fsDotEmpty (Json.obj [("path", Json.str "")]) = .ok "null" ∧
    ListFiles fsDotEmpty (Json.obj [("path", Json.str "")]) ≠ .ok "[]" :=
  listFiles_empty_dir_marshals_null fsDotEmpty "" (by rfl)

/-- Claim C10: tool dispatch scans the catalog in registration order and
invokes the first descriptor whose name matches, so of two descriptors
sharing a name the earlier-registered one is always the one invoked. -/
theorem executeTool_first_registered_wins (pre post : List ToolDefinition)
    (td : ToolDefinition) (name : String) (input : Json)
    (hpre : ∀ t ∈ pre, t.name ≠ name) (hn : td.name = name) :
    findTool (pre ++ td :: post) name = some td ∧
    executeTool (pre ++ td :: post) name input = executeTool [td] name input := by
  have hf := findTool_first pre post td name hpre hn
  refine ⟨hf, ?_⟩
  simp [executeTool, executeToolRun, hf, findTool, if_pos hn]

/-- Witness for C10: with two descriptors both named `dup`, lookup finds
the earlier-registered one and dispatch invokes its implementation. -/
theorem executeTool_first_registered_wins_witness :
    findTool [dupToolA, dupToolB] "dup" = some dupToolA ∧
    executeTool [dupToolA, dupToolB] "dup" Json.null = .ok "first" := by
  have h := executeTool_first_registered_wins [] [dupToolB] dupToolA "dup" Json.null
    (by simp) rfl
  exact ⟨h.1, h.2.trans (by rfl)⟩

/-- Claim C7: dispatching `read_file` with a well-formed payload naming a
file that cannot be read returns the error's textual description as the
tool result, feeds it back into the transcript inside the synthetic
tool-results turn, and the loop continues rather than crashing or
aborting. -/
theorem readFile_access_error_recoverable (fs : Fs) (p e : String)
    (ev : TransportEvent) (rest : List TransportEvent) (inputs : List String)
    (conv : List OllamaMessage) (console : List ConsoleLine) (resp : OllamaResponse)
    (h : fs.readFile p = .error e) :
    ReadFile fs (Json.obj [("path", Json.str p)]) = .err e ∧
    executeTool (mainTools fs) "read_file" (Json.obj [("path", Json.str p)]) = .ok e ∧
    (Chat ev = .ok resp →
      resp.message.toolCalls = [⟨⟨"read_file", Json.obj [("path", Json.str p)]⟩⟩] →
      runLoop (mainTools fs) (ev :: rest) false inputs conv console =
        runLoop (mainTools fs) rest false inputs
          (conv ++ [resp.message, toolResultsMsg [tagResult "read_file" e]])
          (console ++ [.toolTrace "read_file" (Json.obj [("path", Json.str p)])])) := by
  have hrf : ReadFile fs (Json.obj [("path", Json.str p)]) = .err e := by
    simp [ReadFile, unmarshalReadFileInput, jsonField, goDecodeStringField, h]
  refine ⟨hrf, ?_, ?_⟩
  · simp [executeTool, executeToolRun, mainTools, findTool, ReadFileDefinition, hrf]
  · intro hev htc
    rw [runLoop]
    simp only [step1, hev, htc]
    simp [dispatchCalls, executeToolRun, mainTools, findTool, ReadFileDefinition,
      hrf, List.append_assoc]

/-- Witness for C7: `read_file({"path":"config.yaml"})` on a filesystem
without that file produces the not-found description as the tool result
and the loop proceeds to its next backend call. -/
theorem readFile_access_error_recoverable_witness :
    ReadFile fsData (Json.obj [("path", Json.str "config.yaml")]) =
      .err "open config.yaml: no such file or directory" ∧
    executeTool (mainTools fsData) "read_file" (Json.obj [("path", Json.str "config.yaml")]) =
      .ok "open config.yaml: no such file or directory" ∧
    runLoop (mainTools fsData) [evReadMissing] false ["next"] [] [] =
      runLoop (mainTools fsData) [] false ["next"]
        [⟨"assistant", "", [⟨⟨"read_file", Json.obj [("path", Json.str "config.yaml")]⟩⟩]⟩,
         toolResultsMsg [tagResult "read_file" "open config.yaml: no such file or directory"]]
        [.toolTrace "read_file" (Json.obj [("path", Json.str "config.yaml")])] := by
  have h := readFile_access_error_recoverable fsData "config.yaml"
    "open config.yaml: no such file or directory" evReadMissing [] ["next"] [] []
    ⟨⟨"assistant", "", [⟨⟨"read_file", Json.obj [("path", Json.str "config.yaml")]⟩⟩]⟩, false⟩
    (by rfl)
  exact ⟨h.1, h.2.1, h.2.2 (by rfl) (by rfl)⟩

/-- Claim C2, recording the code-side behaviour at the failing input: a
tool dispatch whose argument payload does not decode into the tool's
input type does not produce a parse-error tool result — the
implementation calls `panic(err)`, aborting the whole process.  Shown for
`read_file` with a non-string `path`, for `list_files` with a non-object
payload, and for a full loop iteration, whose outcome is the process
abort, not a continuing session. -/
theorem readFile_malformed_payload_panics :
    ReadFile fsNone (Json.obj [("path", Json.num 5)]) =
      .panicked "json: cannot unmarshal value into Go value of type string" ∧
    executeTool (mainTools fsNone) "read_file" (Json.obj [("path", Json.num 5)]) =
      .panicked "json: cannot unmarshal value into Go value of type string" ∧
    ListFiles fsNone (Json.str "not an object") =
      .panicked "json: cannot unmarshal value into Go value of type main.ListFilesInput" ∧
    runLoop (mainTools fsNone) [evBadPayload, evDone] false [] [] [] =
      ⟨.panicked "json: cannot unmarshal value into Go value of type string",
       [⟨"assistant", "", [⟨⟨"read_file", Json.obj [("path", Json.num 5)]⟩⟩]⟩],
       [.toolTrace "read_file" (Json.obj [("path", Json.num 5)])],
       [], [evDone]⟩ := by
  exact ⟨rfl, rfl, rfl, rfl⟩

/-- Counterexample to claim C5 as stated: a backend-reported error
delivered as a parseable body (the `error`-keyed object Ollama sends on a
failed request) is not surfaced as a failed outcome at all — `Chat`
decodes it to the zero response, and the run completes normally instead
of aborting. -/
theorem chat_backend_reported_error_not_fatal_cex :
    Chat backendErrorEvent = .ok ⟨⟨"", "", []⟩, false⟩ ∧
    AgentRun (mainTools fsNone) ["hi"] [backendErrorEvent] =
      ⟨.done, [userMsg "hi", ⟨"", "", []⟩], [.prompt, .assistant "", .prompt], [], []⟩ := by
  exact ⟨rfl, rfl⟩

/-- Claim C5 as amended: every inference-client failure that `Chat`
reports — transport/read failure or a response body that does not decode —
aborts the entire run: `Agent.Run` returns that error immediately, with
no further prompt and no further backend call (the remaining transport
events are left untouched). -/
theorem chat_failure_aborts_run (tools : List ToolDefinition) (ev : TransportEvent)
    (rest : List TransportEvent) (readUserInput : Bool) (inputs i1 : List String)
    (conv c1 : List OllamaMessage) (console l1 : List ConsoleLine) (e : String)
    (h : Chat ev = .error e)
    (hs : step1 readUserInput inputs conv console = some (i1, c1, l1)) :
    runLoop tools (ev :: rest) readUserInput inputs conv console =
      ⟨.fail e, c1, l1, i1, rest⟩ := by
  rw [runLoop, hs]
  simp [h]

/-- Witness for amended C5: a refused connection on the first backend
call makes the run return that error at once, leaving the later transport
event unconsumed. -/
theorem chat_failure_aborts_run_witness :
    runLoop (mainTools fsNone) [TransportEvent.ioError "connection refused", evDone]
      true ["hi"] [] [] =
      ⟨.fail "connection refused", [userMsg "hi"], [.prompt], [], [evDone]⟩ :=
  chat_failure_aborts_run (mainTools fsNone) (TransportEvent.ioError "connection refused")
    [evDone] true ["hi"] [] [] [userMsg "hi"] [] [.prompt] "connection refused"
    (by rfl) (by rfl)

/-- Counterexample to claim C6 as stated: on an accessible but empty
directory the tool does not return a JSON array of strings — it returns
`null`, the marshalling of the nil slice, whereas the array serialization
of the empty entry sequence is `[]`. -/
theorem listFiles_empty_dir_not_json_array_cex :
    ListFiles fsEmptyDir (Json.obj [("path", Json.str "emptydir")]) = .ok "null" ∧
    specJsonArrayString [] = "[]" ∧
    ToolOutcome.ok "null" ≠ ToolOutcome.ok (specJsonArrayString []) := by
  exact ⟨rfl, rfl, by decide⟩

/-- Claim C6 as amended: `list_files` on an accessible directory walks the
tree rooted at the given path (defaulting to `.` when the path is absent
or empty), collecting entries in traversal order as paths relative to the
root, directories suffixed with `/` and the root excluded (the embedded
walk `walkRoot ∘ sortTree`), and returns that sequence marshalled by Go —
which coincides with the JSON array-of-strings serialization whenever the
sequence is nonempty, and is `null` otherwise. -/
theorem listFiles_walk_and_serialization (fs : Fs) (p : String) (node : FsNode) :
    (fs.statTree (if p = "" then "." else p) = .ok node →
      ListFiles fs (Json.obj [("path", Json.str p)]) =
        .ok (goJsonMarshalStringList (walkRoot (sortTree node)))) ∧
    (fs.statTree "." = .ok node →
      ListFiles fs (Json.obj []) =
        .ok (goJsonMarshalStringList (walkRoot (sortTree node)))) ∧
    (walkRoot (sortTree node) ≠ [] →
      goJsonMarshalStringList (walkRoot (sortTree node)) =
        specJsonArrayString (walkRoot (sortTree node))) := by
  refine ⟨?_, ?_, ?_⟩
  · intro h
    simp [ListFiles, unmarshalListFilesInput, jsonField, goDecodeStringField, h]
  · intro h
    simp [ListFiles, unmarshalListFilesInput, jsonField, goDecodeStringField, h]
  · intro h
    cases hw : walkRoot (sortTree node) with
    | nil => exact absurd hw h
    | cons a as => simp [goJsonMarshalStringList, specJsonArrayString]

/-- Witness for amended C6: walking the `data` fixture lists `a.txt`, then
`sub/` (directory, suffixed), then `sub/b.txt`, in traversal order, and
the nonempty listing is serialized as a JSON array of strings. -/
theorem listFiles_walk_and_serialization_witness :
    ListFiles fsData (Json.obj [("path", Json.str "data")]) =
      .ok "[\"a.txt\",\"sub/\",\"sub/b.txt\"]" ∧
    goJsonMarshalStringList (walkRoot (sortTree nodeData)) =
      specJsonArrayString (walkRoot (sortTree nodeData)) := by
  have h := listFiles_walk_and_serialization fsData "data" nodeData
  exact ⟨(h.1 (by rfl)).trans (by rfl), h.2.2 (by decide)⟩

/-- Claim C1: an assistant turn carrying `K ≥ 1` tool call requests makes
the iteration perform one dispatch per request, in request order (the
tagged results listed below are the image, in order, of the request
list), append exactly one synthetic turn aggregating all `K` tagged
result strings after the assistant turn, and continue directly into the
next backend call with input reading disabled and the pending user inputs
untouched.  (Stated for dispatches that do not panic; a malformed payload
panic is the subject of C2.) -/
theorem run_toolcalls_single_synthetic_turn (tools : List ToolDefinition)
    (ev : TransportEvent) (rest : List TransportEvent) (readUserInput : Bool)
    (inputs i1 : List String) (conv c1 : List OllamaMessage)
    (console l1 : List ConsoleLine) (resp : OllamaResponse)
    (hs : step1 readUserInput inputs conv console = some (i1, c1, l1))
    (hev : Chat ev = .ok resp)
    (hK : resp.message.toolCalls ≠ [])
    (hnp : ∀ tc ∈ resp.message.toolCalls, ∃ s,
      executeTool tools tc.function.name tc.function.arguments = .ok s) :
    runLoop tools (ev :: rest) readUserInput inputs conv console =
      runLoop tools rest false i1
        (c1 ++ [resp.message,
                toolResultsMsg (resp.message.toolCalls.map (fun tc =>
                  tagResult tc.function.name
                    (executeTool tools tc.function.name tc.function.arguments).valueD))])
        (l1 ++ (dispatchCalls tools resp.message.toolCalls).1) := by
  have hd := dispatchCalls_no_panic tools resp.message.toolCalls hnp
  rw [runLoop, hs]
  simp only [hev]
  rcases hdc : dispatchCalls tools resp.message.toolCalls with ⟨traces, outc⟩
  rw [hdc] at hd
  simp only at hd
  subst hd
  cases hcalls : resp.message.toolCalls with
  | nil => exact absurd hcalls hK
  | cons a as =>
    rw [hcalls] at hdc
    simp only [hdc]
    simp [List.append_assoc]

/-- Witness for C1: an assistant turn with two tool calls (`read_file` on
`notes.txt`, then `list_files` on `data`) produces both results, tags
each with its tool name, appends the single aggregated synthetic turn,
and the loop makes the second backend call without consuming new user
input, ending normally after the final plain assistant turn. -/
theorem run_toolcalls_single_synthetic_turn_witness :
    runLoop (mainTools fsData) [evTwoCalls, evDone] false [] [] [] =
      ⟨.done,
       [⟨"assistant", "", [⟨⟨"read_file", Json.obj [("path", Json.str "notes.txt")]⟩⟩,
                           ⟨⟨"list_files", Json.obj [("path", Json.str "data")]⟩⟩]⟩,
        toolResultsMsg [tagResult "read_file" "hello",
                        tagResult "list_files" "[\"a.txt\",\"sub/\",\"sub/b.txt\"]"],
        ⟨"assistant", "done", []⟩],
       [.toolTrace "read_file" (Json.obj [("path", Json.str "notes.txt")]),
        .toolTrace "list_files" (Json.obj [("path", Json.str "data")]),
        .assistant "done", .prompt],
       [], []⟩ := by
  have h := run_toolcalls_single_synthetic_turn (mainTools fsData) evTwoCalls [evDone]
    false [] [] [] [] [] []
    ⟨⟨"assistant", "", [⟨⟨"read_file", Json.obj [("path", Json.str "notes.txt")]⟩⟩,
                        ⟨⟨"list_files", Json.obj [("path", Json.str "data")]⟩⟩]⟩, false⟩
    (by rfl) (by rfl) (by simp)
    (by
      intro tc htc
      rcases List.mem_cons.mp htc with h1 | h2
      · exact ⟨"hello", by rw [h1]; rfl⟩
      · rcases List.mem_cons.mp h2 with h3 | h4
        · exact ⟨"[\"a.txt\",\"sub/\",\"sub/b.txt\"]", by rw [h3]; rfl⟩
        · simp at h4)
  exact h.trans (by rfl)

/-- Claim C3: over `N` exchanges in which every backend turn is a plain
assistant turn with no tool calls, the run terminates normally with a
transcript of exactly `2 N` turns strictly alternating `user` and
`assistant` roles, and the console displays each assistant turn's content
exactly once, in order. -/
theorem run_no_toolcalls_transcript_shape (tools : List ToolDefinition)
    (us : List String) (msgs : List OllamaMessage) (events : List TransportEvent)
    (hlen : us.length = msgs.length)
    (hfa : List.Forall₂ (fun ev m => ∃ d, Chat ev = .ok ⟨m, d⟩) events msgs)
    (hnc : ∀ m ∈ msgs, m.toolCalls = [])
    (hrole : ∀ m ∈ msgs, m.role = "assistant") :
    AgentRun tools us events =
      ⟨.done, transcriptOf us msgs, consoleOf msgs, [], []⟩ ∧
    (transcriptOf us msgs).length = 2 * msgs.length ∧
    rolesAlternate (transcriptOf us msgs) = true ∧
    shownAssistant (consoleOf msgs) = msgs.map (fun m => m.content) := by
  refine ⟨?_, transcriptOf_length us msgs hlen,
    transcriptOf_alternates us msgs hlen hrole, shownAssistant_consoleOf msgs⟩
  have h := runLoop_no_toolcalls tools msgs events us [] [] hlen hfa hnc
  simpa [AgentRun] using h

/-- Witness for C3: two tool-free exchanges leave exactly four strictly
alternating turns and display the two assistant contents once each. -/
theorem run_no_toolcalls_transcript_shape_witness :
    AgentRun (mainTools fsNone) ["hello", "bye"]
      [.body "a" (some (Json.obj [("message", Json.obj
         [("role", Json.str "assistant"), ("content", Json.str "hi")])])),
       .body "b" (some (Json.obj [("message", Json.obj
         [("role", Json.str "assistant"), ("content", Json.str "later")])]))] =
      ⟨.done,
       [userMsg "hello", ⟨"assistant", "hi", []⟩, userMsg "bye", ⟨"assistant", "later", []⟩],
       [.prompt, .assistant "hi", .prompt, .assistant "later", .prompt],
       [], []⟩ ∧
    rolesAlternate
      [userMsg "hello", ⟨"assistant", "hi", []⟩, userMsg "bye", ⟨"assistant", "later", []⟩] =
      true := by
  have h := run_no_toolcalls_transcript_shape (mainTools fsNone) ["hello", "bye"]
    [⟨"assistant", "hi", []⟩, ⟨"assistant", "later", []⟩]
    [.body "a" (some (Json.obj [("message", Json.obj
       [("role", Json.str "assistant"), ("content", Json.str "hi")])])),
     .body "b" (some (Json.obj [("message", Json.obj
       [("role", Json.str "assistant"), ("content", Json.str "later")])]))]
    (by rfl)
    (List.Forall₂.cons ⟨false, by rfl⟩ (List.Forall₂.cons ⟨false, by rfl⟩ List.Forall₂.nil))
    (by intro m hm; rcases List.mem_cons.mp hm with h1 | h2
        · rw [h1]
        · rcases List.mem_cons.mp h2 with h3 | h4
          · rw [h3]
          · simp at h4)
    (by intro m hm; rcases List.mem_cons.mp hm with h1 | h2
        · rw [h1]
        · rcases List.mem_cons.mp h2 with h3 | h4
          · rw [h3]
          · simp at h4)
  exact ⟨h.1.trans (by rfl), h.2.2.1⟩
